import Mathlib

/-!
Verification development for the tvDatafeed client
(src/tvDatafeed/main.py).

The Python source is shallowly embedded below: pure helper functions become
Lean functions, machine floats are modelled by an explicit `PyFloat` type
over the rationals, fallible code returns `Option` / `Except` / `PyResult`,
and the effectful parts of `get_hist` (the websocket receive loop) are
modelled by explicit event lists.  Python exceptions that the source does
not catch are represented by explicit error constructors so that crash
behaviour is observable.
-/

deriving instance DecidableEq for Except

/-- Boolean test that `pat` is a leading segment of `l` (used to model
substring search on Python strings). -/
def startsWithL : List Char → List Char → Bool
  | [], _ => true
  | _ :: _, [] => false
  | a :: as, b :: bs => a = b && startsWithL as bs

/-- Boolean test that `needle` occurs contiguously inside `hay`; this models
the Python expression `needle in hay` on strings. -/
def containsSub : List Char → List Char → Bool
  | n, [] => startsWithL n []
  | n, hay@(_ :: t) => startsWithL n hay || containsSub n t

/-- The Python membership test `needle in hay` for strings. -/
def strContains (needle hay : String) : Bool :=
  containsSub needle.data hay.data

/-- Decimal digit test, as used by the modelled Python number parsers. -/
def isDigitCh (c : Char) : Bool := '0' ≤ c && c ≤ '9'

/-- Value of a list of decimal digits, most significant first. -/
def digitsVal (l : List Char) : Nat :=
  l.foldl (fun n c => 10 * n + (c.toNat - 48)) 0

/-- Python `str.strip()` whitespace test (ASCII part), used by `float(...)`. -/
def isPyWs (c : Char) : Bool :=
  c = ' ' || c = '\t' || c = '\n' || c = '\r' || c = '\x0b' || c = '\x0c'

/-- Strip leading and trailing whitespace, as Python `float(...)` does. -/
def stripWsL (l : List Char) : List Char :=
  ((l.dropWhile isPyWs).reverse.dropWhile isPyWs).reverse

/-- ASCII lower-casing of a single character, for the case-insensitive
`inf` / `infinity` / `nan` forms accepted by Python `float(...)`. -/
def lowerAscii (c : Char) : Char :=
  if 'A' ≤ c && c ≤ 'Z' then Char.ofNat (c.toNat + 32) else c

/-- Model of a Python `float` value.  The source never computes with the
parsed numbers (they are only stored in the result rows), so finite doubles
are modelled exactly by rationals; the infinities and NaN are kept as
explicit constructors because `float(...)` can produce them. -/
inductive PyFloat where
  | finite : ℚ → PyFloat
  | inf : Bool → PyFloat
  | nan : PyFloat
deriving DecidableEq

/-- The exact rational value of a decimal literal with optional sign,
integer digits of value `ip`, fraction digits of value `fp` over `flen`
places, and decimal exponent `e`; built from integer arithmetic and
`mkRat` so that it evaluates inside the kernel. -/
def decimalRat (neg : Bool) (ip fp flen : Nat) (e : Int) : ℚ :=
  let num : Int := (ip * 10 ^ flen + fp : Nat)
  let num : Int := if neg then -num else num
  if 0 ≤ e then mkRat (num * (10 ^ e.toNat : Nat)) (10 ^ flen)
  else mkRat num (10 ^ flen * 10 ^ (-e).toNat)

/-- Mantissa part of the Python `float(...)` grammar: digits with an
optional decimal point (at least one digit overall).  Returns the digit
values and count and the unconsumed remainder. -/
def pyFloatMant (l : List Char) : Option ((Nat × Nat × Nat) × List Char) :=
  let ip := l.takeWhile isDigitCh
  let r1 := l.drop ip.length
  match r1 with
  | '.' :: r2 =>
    let fp := r2.takeWhile isDigitCh
    let r3 := r2.drop fp.length
    if ip.isEmpty && fp.isEmpty then none
    else some ((digitsVal ip, digitsVal fp, fp.length), r3)
  | _ =>
    if ip.isEmpty then none
    else some ((digitsVal ip, 0, 0), r1)

/-- Exponent part of the Python `float(...)` grammar: an optional
`e`/`E` followed by an optional sign and mandatory digits.  A bare
exponent marker with no digits makes the whole parse fail, exactly as
`float("1e")` raises `ValueError`. -/
def pyFloatExp (l : List Char) : Option (Int × List Char) :=
  match l with
  | 'e' :: r | 'E' :: r =>
    let (sgn, r1) : Int × List Char :=
      match r with
      | '+' :: t => (1, t)
      | '-' :: t => (-1, t)
      | _ => (1, r)
    let d := r1.takeWhile isDigitCh
    if d.isEmpty then none
    else some (sgn * (digitsVal d : Int), r1.drop d.length)
  | _ => some (0, l)

/-- Model of the Python builtin `float(s)` on the string `s` (as used at
main.py lines 169 and 180): strip whitespace, optional sign, then either a
decimal literal with optional exponent or the case-insensitive words
`inf`, `infinity`, `nan`.  Returns `none` where Python raises
`ValueError`.  (The rarely used underscore digit separators of Python are
not modelled.) -/
def pyFloatL (l0 : List Char) : Option PyFloat :=
  let l1 := stripWsL l0
  let (neg, l2) : Bool × List Char :=
    match l1 with
    | '+' :: t => (false, t)
    | '-' :: t => (true, t)
    | _ => (false, l1)
  let low := l2.map lowerAscii
  if low = "inf".data || low = "infinity".data then some (.inf neg)
  else if low = "nan".data then some .nan
  else
    match pyFloatMant l2 with
    | none => none
    | some ((ip, fp, flen), r) =>
      match pyFloatExp r with
      | none => none
      | some (e, r2) =>
        if r2.isEmpty then some (.finite (decimalRat neg ip fp flen e))
        else none

/-- Lazy group of the regular expression `"s":\[(.+?)\}\]` once the literal
part has matched: the shortest nonempty run of non-newline characters that
is followed by the two characters closing brace and closing bracket.
Mirrors the semantics of a lazy `(.+?)` in Python `re`. -/
def lazyGrp : List Char → Option (List Char)
  | [] => none
  | c :: rest =>
    if c = '\n' then none
    else
      match rest with
      | '\x7d' :: ']' :: _ => some [c]
      | _ => (lazyGrp rest).map (c :: ·)

/-- Attempt to match `"s":\[(.+?)\}\]` at the head of the list: the five
literal characters of `"s":[` followed by a lazy group. -/
def seriesAt : List Char → Option (List Char)
  | '"' :: 's' :: '"' :: ':' :: '[' :: rest => lazyGrp rest
  | _ => none

/-- Model of `re.search('"s":\[(.+?)\}\]', raw_data)` at main.py line 162:
try to match at each position from the left, returning the captured group
of the first position that matches. -/
def searchSeriesL : List Char → Option (List Char)
  | [] => none
  | c :: t => (seriesAt (c :: t)).orElse fun _ => searchSeriesL t

/-- Splitting on single-character delimiters, keeping empty fields; this is
exactly Python `re.split` with an alternation of single characters. -/
def splitChars (p : Char → Bool) : List Char → List (List Char)
  | [] => [[]]
  | c :: t =>
    match splitChars p t with
    | [] => [[]]
    | g :: gs => if p c then [] :: g :: gs else (c :: g) :: gs

/-- Delimiter set of `re.split("\[|:|,|\]", xi)` at main.py line 168. -/
def isRecDelim (c : Char) : Bool :=
  c = '[' || c = ':' || c = ',' || c = ']'

/-- The positional token list of one bar record: main.py line 168. -/
def recTokens (r : List Char) : List (List Char) :=
  splitChars isRecDelim r

/-- Python `str.split(sep)` with a nonempty separator, on character lists:
split at each leftmost non-overlapping occurrence of `sep`, keeping empty
fields.  The fuel argument only drives the recursion and is sufficient at
the call site. -/
def splitOnAuxL (sep : List Char) : Nat → List Char → List (List Char)
  | _, [] => [[]]
  | 0, l => [l]
  | fuel + 1, c :: t =>
    if startsWithL sep (c :: t) then
      [] :: splitOnAuxL sep fuel ((c :: t).drop sep.length)
    else
      match splitOnAuxL sep fuel t with
      | [] => [[]]
      | g :: gs => (c :: g) :: gs

/-- Python `str.split(sep)` for a nonempty separator. -/
def splitOnL (sep l : List Char) : List (List Char) :=
  if sep.isEmpty then [l] else splitOnAuxL sep l.length l

/-- The parsed number at positional index `i` of a token list, when the
token exists and parses. -/
def tokFloat (xs : List (List Char)) (i : Nat) : Option PyFloat :=
  (xs.get? i).bind pyFloatL

/-- Result of a Python computation that the source may leave to crash: the
string names the exception class of an unhandled exception. -/
inductive PyResult (α : Type) where
  | ok : α → PyResult α
  | exc : String → PyResult α
deriving DecidableEq

/-- One row of the resulting data frame: the timestamp (seconds since the
epoch, as converted by `datetime.datetime.fromtimestamp`) and the five
numeric columns appended at main.py lines 171-187. -/
structure Bar where
  ts : ℚ
  openv : PyFloat
  highv : PyFloat
  lowv : PyFloat
  closev : PyFloat
  volume : PyFloat
deriving DecidableEq

/-- One iteration of the field loop `for i in range(5, 10)` at main.py
lines 173-185, acting on the flag `volume_data` and returning the value
appended to the row.  When the flag is already cleared and `i == 9` the
token is not read at all (the `continue` branch); otherwise a missing
token is an uncaught `IndexError` and an unparsable token is the caught
`ValueError` which clears the flag and records `0.0`. -/
def stepField (xs : List (List Char)) (st : Bool × List PyFloat) (i : Nat) :
    PyResult (Bool × List PyFloat) :=
  if st.1 = false && i = 9 then .ok (st.1, st.2 ++ [.finite 0])
  else
    match xs.get? i with
    | none => .exc "IndexError"
    | some t =>
      match pyFloatL t with
      | some v => .ok (st.1, st.2 ++ [v])
      | none => .ok (false, st.2 ++ [.finite 0])

/-- Propagate an uncaught exception through the remaining loop iterations. -/
def stepFold (xs : List (List Char)) (st : PyResult (Bool × List PyFloat))
    (i : Nat) : PyResult (Bool × List PyFloat) :=
  match st with
  | .exc e => .exc e
  | .ok s => stepField xs s i

/-- Processing of one bar record from its positional tokens: main.py lines
168-187.  Token 4 is the timestamp (`float` failure and the nonfinite
rejections of `datetime.datetime.fromtimestamp` are uncaught), then the
field loop runs over indices 5 to 9.  The loop appends exactly one value
per index, so a successful run always produces the five columns. -/
def procTokens (vd : Bool) (xs : List (List Char)) : PyResult (Bool × Bar) :=
  match xs.get? 4 with
  | none => .exc "IndexError"
  | some t4 =>
    match pyFloatL t4 with
    | none => .exc "ValueError"
    | some (.inf _) => .exc "OverflowError"
    | some .nan => .exc "ValueError"
    | some (.finite ts) =>
      match List.foldl (stepFold xs) (.ok (vd, [])) [5, 6, 7, 8, 9] with
      | .exc e => .exc e
      | .ok (vd9, [o, h, l, c, v]) => .ok (vd9, ⟨ts, o, h, l, c, v⟩)
      | .ok _ => .exc "IndexError"

/-- Processing of one raw record: split into positional tokens and parse
them. -/
def procRecord (vd : Bool) (r : List Char) : PyResult (Bool × Bar) :=
  procTokens vd (recTokens r)

/-- The record loop `for xi in x` at main.py lines 167-187, threading the
series-wide `volume_data` flag through the records and accumulating rows;
an uncaught exception aborts the whole loop. -/
def procAll : Bool → List (List Char) → PyResult (List Bar)
  | _, [] => .ok []
  | vd, r :: rs =>
    match procRecord vd r with
    | .exc e => .exc e
    | .ok (vd1, b) =>
      match procAll vd1 rs with
      | .exc e => .exc e
      | .ok bs => .ok (b :: bs)

/-- Result of `TvDatafeed.__create_df`: either a data frame (the symbol
column inserted at line 192, plus the rows), or the caught
`AttributeError` path at lines 194-195 which logs and returns `None`
(this models the ParseError outcome of the specification), or an
exception that the source does not catch. -/
inductive DfResult where
  | ok : String → List Bar → DfResult
  | noData : DfResult
  | crash : String → DfResult
deriving DecidableEq

/-- Model of `TvDatafeed.__create_df(raw_data, symbol)` at main.py lines
159-195: locate the series block with the regular expression, split it on
the record separator, parse every record positionally, and return the
rows tagged with the symbol.  A failed regex search is the
`AttributeError` of `.group(1)` on `None`, caught at line 194. -/
def create_df (raw_data symbol : String) : DfResult :=
  match searchSeriesL raw_data.data with
  | none => .noData
  | some out =>
    match procAll true (splitOnL ",\x7b\"".data out) with
    | .exc e => .crash e
    | .ok bars => .ok symbol bars

/-- The dynamically typed `contract` argument of
`TvDatafeed.__format_symbol`: Python passes `None`, an `int`, or any other
value (rejected at line 209). -/
inductive PyContract where
  | none : PyContract
  | int : Int → PyContract
  | other : String → PyContract
deriving DecidableEq

/-- Lowercase hexadecimal digit, for the `\uXXXX` escapes produced by
`json.dumps` with its default `ensure_ascii=True`. -/
def hexDig (n : Nat) : Char :=
  "0123456789abcdef".data.getD (n % 16) '0'

/-- Decimal digits of a natural number, most significant first, with a
fuel argument (the fuel is always sufficient at the call site). -/
def natCharsAux : Nat → Nat → List Char
  | 0, _ => []
  | fuel + 1, n =>
    if n < 10 then [hexDig (n % 10)]
    else natCharsAux fuel (n / 10) ++ [hexDig (n % 10)]

/-- Decimal representation of a natural number, as Python `str`. -/
def natChars (n : Nat) : List Char := natCharsAux (n + 1) n

/-- Decimal representation of a Python `int`, as Python `str`. -/
def intChars : Int → List Char
  | .ofNat m => natChars m
  | .negSucc m => '-' :: natChars (m + 1)

/-- Model of `TvDatafeed.__format_symbol(symbol, exchange, contract)` at
main.py lines 197-211: a symbol already containing a colon is returned
verbatim; otherwise the exchange qualifier is prepended and an integer
contract appends its decimal text and an exclamation mark; any other
non-`None` contract raises `ValueError("not a valid contract")`. -/
def format_symbol (symbol exchange : String) (contract : PyContract) :
    Except String String :=
  if strContains ":" symbol then .ok symbol
  else
    match contract with
    | .none => .ok (exchange ++ ":" ++ symbol)
    | .int n => .ok (exchange ++ ":" ++ symbol ++ String.mk (intChars n) ++ "!")
    | .other _ => .error "not a valid contract"

/-- JSON values as the source passes them to `json.dumps`: the parameter
lists of the protocol messages hold strings, integers, arrays and objects
(main.py lines 243-297 use nothing else). -/
inductive JVal where
  | str : String → JVal
  | num : Int → JVal
  | arr : List JVal → JVal
  | obj : List (String × JVal) → JVal

/-- Four lowercase hexadecimal digits of `n < 0x10000`. -/
def hex4 (n : Nat) : List Char :=
  [hexDig (n / 4096), hexDig (n / 256), hexDig (n / 16), hexDig n]

/-- Escaping of one character inside a JSON string by `json.dumps` with
`ensure_ascii=True` (the default used at main.py line 148): quote,
backslash and the named control characters get two-character escapes,
printable ASCII is kept, everything else becomes `\uXXXX`, with surrogate
pairs for the astral plane. -/
def escChar (c : Char) : List Char :=
  if c = '"' then ['\\', '"']
  else if c = '\\' then ['\\', '\\']
  else if c = '\n' then ['\\', 'n']
  else if c = '\t' then ['\\', 't']
  else if c = '\r' then ['\\', 'r']
  else if c.toNat = 8 then ['\\', 'b']
  else if c.toNat = 12 then ['\\', 'f']
  else if 0x20 ≤ c.toNat && c.toNat ≤ 0x7e then [c]
  else if c.toNat < 0x10000 then '\\' :: 'u' :: hex4 c.toNat
  else
    '\\' :: 'u' :: hex4 (0xd800 + (c.toNat - 0x10000) / 0x400) ++
      '\\' :: 'u' :: hex4 (0xdc00 + (c.toNat - 0x10000) % 0x400)

/-- Serialization of a JSON string literal. -/
def dumpStr (s : String) : List Char :=
  '"' :: s.data.foldr (fun c acc => escChar c ++ acc) ['"']

mutual

/-- Compact serialization of a JSON value, mirroring
`json.dumps(..., separators=(",", ":"))` at main.py line 148 (insertion
order of keys is kept, no whitespace is emitted). -/
def dumpJ : JVal → List Char
  | .str s => dumpStr s
  | .num n => intChars n
  | .arr xs => '[' :: dumpArr xs ++ [']']
  | .obj kvs => '\x7b' :: dumpObj kvs ++ ['\x7d']

/-- Comma-separated serialization of the elements of a JSON array. -/
def dumpArr : List JVal → List Char
  | [] => []
  | [v] => dumpJ v
  | v :: vs => dumpJ v ++ ',' :: dumpArr vs

/-- Comma-separated serialization of the members of a JSON object. -/
def dumpObj : List (String × JVal) → List Char
  | [] => []
  | [(k, v)] => dumpStr k ++ ':' :: dumpJ v
  | (k, v) :: kvs => dumpStr k ++ ':' :: dumpJ v ++ ',' :: dumpObj kvs

end

/-- Model of `TvDatafeed.__construct_message(func, param_list)` at main.py
lines 146-148. -/
def construct_message (func : String) (param_list : List JVal) : String :=
  String.mk (dumpJ (.obj [("m", .str func), ("p", .arr param_list)]))

/-- Model of `TvDatafeed.__prepend_header(st)` at main.py lines 142-144:
`"~m~" + str(len(st)) + "~m~" + st`, where Python `len` counts the
characters of the string. -/
def prepend_header (st : String) : String :=
  "~m~" ++ toString st.length ++ "~m~" ++ st

/-- Model of `TvDatafeed.__create_message` at main.py lines 150-151. -/
def create_message (func : String) (paramList : List JVal) : String :=
  prepend_header (construct_message func paramList)

/-- Number of bytes of the UTF-8 encoding of one character; the frame is
sent as a UTF-8 text websocket frame, so this models the wire byte count. -/
def charUtf8Size (c : Char) : Nat :=
  if c.toNat < 0x80 then 1
  else if c.toNat < 0x800 then 2
  else if c.toNat < 0x10000 then 3
  else 4

/-- Byte length of the UTF-8 encoding of a string. -/
def utf8Len (s : String) : Nat :=
  (s.data.map charUtf8Size).sum

namespace Tv

/-- The `Interval` enumeration of main.py lines 18-31 (namespaced because
Mathlib already has an `Interval`). -/
inductive Interval where
  | in_1_minute | in_3_minute | in_5_minute | in_15_minute | in_30_minute
  | in_45_minute | in_1_hour | in_2_hour | in_3_hour | in_4_hour
  | in_daily | in_weekly | in_monthly
deriving DecidableEq

end Tv

/-- The wire value of each `Interval` member. -/
def Tv.Interval.value : Tv.Interval → String
  | .in_1_minute => "1"
  | .in_3_minute => "3"
  | .in_5_minute => "5"
  | .in_15_minute => "15"
  | .in_30_minute => "30"
  | .in_45_minute => "45"
  | .in_1_hour => "1H"
  | .in_2_hour => "2H"
  | .in_3_hour => "3H"
  | .in_4_hour => "4H"
  | .in_daily => "1D"
  | .in_weekly => "1W"
  | .in_monthly => "1M"

/-- One protocol message as handed to `__send_message(func, args)`. -/
structure Msg where
  m : String
  p : List JVal

/-- The field-name arguments of the `quote_set_fields` message, main.py
lines 250-272. -/
def quoteFieldNames : List String :=
  ["ch", "chp", "current_session", "description", "local_description",
   "language", "exchange", "fractional", "is_tradable", "lp", "lp_time",
   "minmov", "minmove2", "original_name", "pricescale", "pro_name",
   "short_name", "type", "update_mode", "volume", "currency_code",
   "rchp", "rtc"]

/-- The third argument of `resolve_symbol`, built by string concatenation
at main.py lines 286-290. -/
def resolveDescriptor (symbol : String) (extended_session : Bool) : String :=
  "=\x7b\"symbol\":\"" ++ symbol ++ "\",\"adjustment\":\"splits\",\"session\":" ++
    (if extended_session then "\"extended\"" else "\"regular\"") ++ "\x7d"

/-- The straight-line part of `TvDatafeed.get_hist` between opening the
connection and entering the receive loop, main.py lines 235-297: format
the symbol, then send the nine setup messages in source order.  The
returned list is the sequence of `__send_message(func, args)` calls with
their exact arguments; `token` is the stored auth token and `session` /
`chart_session` are the two generated session identifiers. -/
def get_hist_setup (token session chart_session : String)
    (symbol exchange : String) (interval : Tv.Interval) (n_bars : Int)
    (fut_contract : PyContract) (extended_session : Bool) :
    Except String (List Msg) :=
  match format_symbol symbol exchange fut_contract with
  | .error e => .error e
  | .ok sym =>
    .ok
      [⟨"set_auth_token", [.str token]⟩,
       ⟨"chart_create_session", [.str chart_session, .str ""]⟩,
       ⟨"quote_create_session", [.str session]⟩,
       ⟨"quote_set_fields", .str session :: quoteFieldNames.map .str⟩,
       ⟨"quote_add_symbols",
         [.str session, .str sym,
          .obj [("flags", .arr [.str "force_permission"])]]⟩,
       ⟨"quote_fast_symbols", [.str session, .str sym]⟩,
       ⟨"resolve_symbol",
         [.str chart_session, .str "symbol_1",
          .str (resolveDescriptor sym extended_session)]⟩,
       ⟨"create_series",
         [.str chart_session, .str "s1", .str "s1", .str "symbol_1",
          .str interval.value, .num n_bars]⟩,
       ⟨"switch_timezone", [.str chart_session, .str "exchange"]⟩]

/-- One interaction of the receive loop with the socket: either
`self.ws.recv()` returns a chunk of text, or it raises (any exception,
caught at main.py line 306). -/
inductive RecvEvent where
  | chunk : String → RecvEvent
  | fail : RecvEvent
deriving DecidableEq

/-- The receive loop of `get_hist`, main.py lines 299-311, driven by the
list of socket interactions: each received chunk is appended to the
accumulator followed by a newline, a raised `recv` breaks out of the loop
keeping the accumulator, and a chunk containing the literal
`series_completed` breaks after being appended.  `none` models the case
where the modelled event list is exhausted with the loop still running
(the real loop would block on the socket). -/
def recvLoop : String → List RecvEvent → Option String
  | _, [] => none
  | raw, .fail :: _ => some raw
  | raw, .chunk s :: rest =>
    let raw1 := raw ++ s ++ "\n"
    if strContains "series_completed" s then some raw1
    else recvLoop raw1 rest

/-- The accumulator contents produced by a run of chunk events. -/
def accumOf : List RecvEvent → String
  | [] => ""
  | .chunk s :: t => s ++ "\n" ++ accumOf t
  | .fail :: t => accumOf t

/-- The tail of `get_hist` after the setup messages, main.py lines
299-313: run the receive loop from an empty accumulator and, when it
breaks, hand whatever was accumulated to `__create_df`. -/
def get_hist_recv (events : List RecvEvent) (symbol : String) :
    Option DfResult :=
  (recvLoop "" events).map fun raw => create_df raw symbol

/-- Values produced by Python `json.loads`, as needed by the token-cache
reader: strings, integers, floats, booleans, null, arrays and objects. -/
inductive PyVal where
  | str : String → PyVal
  | intv : Int → PyVal
  | floatv : PyFloat → PyVal
  | boolv : Bool → PyVal
  | null : PyVal
  | arr : List PyVal → PyVal
  | dict : List (String × PyVal) → PyVal

/-- JSON whitespace, as skipped by the Python `json` scanner. -/
def jWs (l : List Char) : List Char :=
  l.dropWhile fun c => c = ' ' || c = '\t' || c = '\n' || c = '\r'

/-- Value of one hexadecimal digit character. -/
def hexVal (c : Char) : Option Nat :=
  if isDigitCh c then some (c.toNat - 48)
  else if 'a' ≤ c && c ≤ 'f' then some (c.toNat - 87)
  else if 'A' ≤ c && c ≤ 'F' then some (c.toNat - 55)
  else none

/-- Four hexadecimal digits, as in a JSON `\uXXXX` escape. -/
def hex4Val : List Char → Option (Nat × List Char)
  | a :: b :: c :: d :: r =>
    match hexVal a, hexVal b, hexVal c, hexVal d with
    | some x, some y, some z, some w => some (4096 * x + 256 * y + 16 * z + w, r)
    | _, _, _, _ => none
  | _ => none

/-- Replacement character standing in for a lone surrogate: Python keeps
lone surrogates in its strings, which a Lean `Char` cannot represent; the
token-cache claims never depend on such strings. -/
def surrogateRepl : Char := Char.ofNat 0xfffd

/-- Body of a JSON string after its opening quote: the decoded characters
and the input following the closing quote.  Handles the JSON escapes,
including `\uXXXX` with surrogate pairs; raw control characters are
rejected as Python `json.loads` does in strict mode. -/
def jStrAux : Nat → List Char → Option (List Char × List Char)
  | 0, _ => none
  | _ + 1, [] => none
  | fuel + 1, c :: r =>
    if c = '"' then some ([], r)
    else if c = '\\' then
      match r with
      | [] => none
      | e :: r2 =>
        if e = '"' then (jStrAux fuel r2).map fun (cs, rest) => ('"' :: cs, rest)
        else if e = '\\' then (jStrAux fuel r2).map fun (cs, rest) => ('\\' :: cs, rest)
        else if e = '/' then (jStrAux fuel r2).map fun (cs, rest) => ('/' :: cs, rest)
        else if e = 'b' then (jStrAux fuel r2).map fun (cs, rest) => (Char.ofNat 8 :: cs, rest)
        else if e = 'f' then (jStrAux fuel r2).map fun (cs, rest) => (Char.ofNat 12 :: cs, rest)
        else if e = 'n' then (jStrAux fuel r2).map fun (cs, rest) => ('\n' :: cs, rest)
        else if e = 'r' then (jStrAux fuel r2).map fun (cs, rest) => ('\r' :: cs, rest)
        else if e = 't' then (jStrAux fuel r2).map fun (cs, rest) => ('\t' :: cs, rest)
        else if e = 'u' then
          match hex4Val r2 with
          | none => none
          | some (n, r3) =>
            if 0xd800 ≤ n && n ≤ 0xdbff then
              match r3 with
              | '\\' :: 'u' :: r4 =>
                match hex4Val r4 with
                | some (n2, r5) =>
                  if 0xdc00 ≤ n2 && n2 ≤ 0xdfff then
                    (jStrAux fuel r5).map fun (cs, rest) =>
                      (Char.ofNat (0x10000 + (n - 0xd800) * 0x400 + (n2 - 0xdc00)) :: cs, rest)
                  else (jStrAux fuel r3).map fun (cs, rest) => (surrogateRepl :: cs, rest)
                | none => (jStrAux fuel r3).map fun (cs, rest) => (surrogateRepl :: cs, rest)
              | _ => (jStrAux fuel r3).map fun (cs, rest) => (surrogateRepl :: cs, rest)
            else if 0xdc00 ≤ n && n ≤ 0xdfff then
              (jStrAux fuel r3).map fun (cs, rest) => (surrogateRepl :: cs, rest)
            else (jStrAux fuel r3).map fun (cs, rest) => (Char.ofNat n :: cs, rest)
        else none
    else if c.toNat < 0x20 then none
    else (jStrAux fuel r).map fun (cs, rest) => (c :: cs, rest)

/-- A JSON string starting after its opening quote. -/
def jStrRest (l : List Char) : Option (String × List Char) :=
  (jStrAux (l.length + 1) l).map fun (cs, rest) => (String.mk cs, rest)

/-- Build the parsed number: an integer when neither a fraction nor an
exponent was present, a float otherwise, matching the Python `json`
number decoding. -/
def mkJNum (neg : Bool) (ip : Nat) (frac : Option (Nat × Nat)) : PyVal :=
  match frac with
  | none => .intv (if neg then -(ip : Int) else (ip : Int))
  | some (fp, flen) => .floatv (.finite (decimalRat neg ip fp flen 0))

/-- Optional exponent of a JSON number.  When the exponent marker is not
followed by digits the number ends before the marker, matching the
maximal-munch regular expression of the Python `json` scanner. -/
def jNumExp (neg : Bool) (ip : Nat) (frac : Option (Nat × Nat))
    (l : List Char) : Option (PyVal × List Char) :=
  match l with
  | 'e' :: r | 'E' :: r =>
    let (es, r1) : Int × List Char :=
      match r with
      | '+' :: t => (1, t)
      | '-' :: t => (-1, t)
      | _ => (1, r)
    let ed := r1.takeWhile isDigitCh
    if ed.isEmpty then some (mkJNum neg ip frac, l)
    else
      let (fp, flen) := frac.getD (0, 0)
      some (.floatv (.finite
        (decimalRat neg ip fp flen (es * (digitsVal ed : Int)))),
        r1.drop ed.length)
  | _ => some (mkJNum neg ip frac, l)

/-- Optional fraction of a JSON number; a decimal point without digits
ends the number before the point. -/
def jNumFrac (neg : Bool) (ip : Nat) (l : List Char) :
    Option (PyVal × List Char) :=
  match l with
  | '.' :: r =>
    let fp := r.takeWhile isDigitCh
    if fp.isEmpty then jNumExp neg ip none ('.' :: r)
    else jNumExp neg ip (some (digitsVal fp, fp.length)) (r.drop fp.length)
  | _ => jNumExp neg ip none l

/-- A JSON number at the head of the input, per the JSON grammar: optional
minus, then `0` or a nonzero-led digit run (so a leading zero ends the
integer part immediately, as the Python scanner regular expression does). -/
def jNum (l : List Char) : Option (PyVal × List Char) :=
  let (neg, l1) : Bool × List Char :=
    match l with
    | '-' :: t => (true, t)
    | _ => (false, l)
  match l1 with
  | '0' :: r => jNumFrac neg 0 r
  | c :: r =>
    if isDigitCh c then
      let d := (c :: r).takeWhile isDigitCh
      jNumFrac neg (digitsVal d) ((c :: r).drop d.length)
    else none
  | [] => none

mutual

/-- A JSON value at the head of the input, as decoded by Python
`json.loads` (which also accepts the `NaN` and `Infinity` extensions by
default).  The fuel only bounds the recursion; `jsonParse` supplies more
fuel than any input can consume. -/
def jVal : Nat → List Char → Option (PyVal × List Char)
  | 0, _ => none
  | fuel + 1, l =>
    match l with
    | '\x7b' :: r => jObj fuel (jWs r)
    | '[' :: r => jArr fuel (jWs r)
    | '"' :: r => (jStrRest r).map fun (s, rest) => (.str s, rest)
    | 't' :: 'r' :: 'u' :: 'e' :: r => some (.boolv true, r)
    | 'f' :: 'a' :: 'l' :: 's' :: 'e' :: r => some (.boolv false, r)
    | 'n' :: 'u' :: 'l' :: 'l' :: r => some (.null, r)
    | 'N' :: 'a' :: 'N' :: r => some (.floatv .nan, r)
    | 'I' :: 'n' :: 'f' :: 'i' :: 'n' :: 'i' :: 't' :: 'y' :: r =>
      some (.floatv (.inf false), r)
    | '-' :: 'I' :: 'n' :: 'f' :: 'i' :: 'n' :: 'i' :: 't' :: 'y' :: r =>
      some (.floatv (.inf true), r)
    | _ => jNum l

/-- A JSON object after its opening brace and whitespace. -/
def jObj : Nat → List Char → Option (PyVal × List Char)
  | 0, _ => none
  | fuel + 1, l =>
    match l with
    | '\x7d' :: r => some (.dict [], r)
    | _ => jMembers fuel l []

/-- The members of a JSON object, accumulated in order. -/
def jMembers : Nat → List Char → List (String × PyVal) →
    Option (PyVal × List Char)
  | 0, _, _ => none
  | fuel + 1, l, acc =>
    match l with
    | '"' :: r =>
      match jStrRest r with
      | none => none
      | some (k, r1) =>
        match jWs r1 with
        | ':' :: r2 =>
          match jVal fuel (jWs r2) with
          | none => none
          | some (v, r3) =>
            match jWs r3 with
            | ',' :: r4 =>
              match jWs r4 with
              | '"' :: r5 => jMembers fuel ('"' :: r5) (acc ++ [(k, v)])
              | _ => none
            | '\x7d' :: r4 => some (.dict (acc ++ [(k, v)]), r4)
            | _ => none
        | _ => none
    | _ => none

/-- A JSON array after its opening bracket and whitespace. -/
def jArr : Nat → List Char → Option (PyVal × List Char)
  | 0, _ => none
  | fuel + 1, l =>
    match l with
    | ']' :: r => some (.arr [], r)
    | _ => jItems fuel l []

/-- The items of a JSON array, accumulated in order. -/
def jItems : Nat → List Char → List PyVal → Option (PyVal × List Char)
  | 0, _, _ => none
  | fuel + 1, l, acc =>
    match jVal fuel l with
    | none => none
    | some (v, r) =>
      match jWs r with
      | ',' :: r2 => jItems fuel (jWs r2) (acc ++ [v])
      | ']' :: r2 => some (.arr (acc ++ [v]), r2)
      | _ => none

end

/-- Model of Python `json.loads(content)`: parse one JSON value surrounded
by whitespace; any leftover input is an error.  `none` models a raised
`JSONDecodeError`. -/
def jsonParse (s : String) : Option PyVal :=
  match jVal (3 * s.data.length + 9) (jWs s.data) with
  | some (v, r) => if (jWs r).isEmpty then some v else none
  | none => none

/-- Python `dict.get(key)` on the insertion-ordered members, where a
duplicated key keeps its last value (as `json.loads` builds the dict). -/
def pyDictGet (kvs : List (String × PyVal)) (k : String) : Option PyVal :=
  (kvs.reverse.find? fun kv => kv.1 == k).map (·.2)

/-- Model of `TvDatafeed._load_token` at main.py lines 68-75.  The cache
file is modelled by its contents (`none` when `os.path.exists` is false).
A file that does not parse as JSON raises inside the `try` and is caught
(`return None`); a parsed non-dict value makes `.get` raise
`AttributeError`, which the same handler catches; a dict without the
`token` key yields `None` from `.get`. -/
def load_token (cacheFile : Option String) : Option PyVal :=
  match cacheFile with
  | none => none
  | some content =>
    match jsonParse content with
    | none => none
    | some (.dict kvs) => pyDictGet kvs "token"
    | some _ => none

/-- Python truthiness of a JSON-derived value, as tested by `if token:` at
main.py line 55. -/
def pyTruthy : PyVal → Bool
  | .str s => !s.isEmpty
  | .intv n => decide (n ≠ 0)
  | .floatv (.finite q) => decide (q ≠ 0)
  | .floatv _ => true
  | .boolv b => b
  | .null => false
  | .arr xs => !xs.isEmpty
  | .dict kvs => !kvs.isEmpty

/-- The client state built by `TvDatafeed.__init__`: the stored token and
the two generated session identifiers (main.py lines 55-66). -/
structure TvClient where
  token : PyVal
  session : String
  chart_session : String

/-- The credential branch of `TvDatafeed.__init__` (main.py lines 58-62)
together with `_login_and_get_token` and `__auth` (lines 84-108): both
check that username and password are truthy strings; the sign-in POST is
modelled by the `auth` oracle (`none` for a failed request or a response
without the token field, in which case `__auth` returns `None` and
`_login_and_get_token` raises `ValueError`).  The second component
records whether a network call was performed. -/
def tv_init_fallback (username password : Option String)
    (auth : String → String → Option String) (r1 r2 : String) :
    Except String TvClient × Bool :=
  match username, password with
  | some u, some p =>
    if u ≠ "" && p ≠ "" then
      match auth u p with
      | some t => (.ok ⟨.str t, "qs_" ++ r1, "cs_" ++ r2⟩, true)
      | none => (.error "Login failed, could not retrieve token", true)
    else (.error "Must provide either token or username/password", false)
  | _, _ => (.error "Must provide either token or username/password", false)

/-- Model of `TvDatafeed.__init__` at main.py lines 42-66: load the cached
token; a truthy cached token is stored without any network interaction,
otherwise the credential branch runs.  `r1` and `r2` stand for the twelve
random lowercase characters drawn by `__generate_session` and
`__generate_chart_session`; writing the token back to the cache file
(`_save_token`, never fatal) is a file side effect outside this model.
The boolean records whether a network call was performed. -/
def tv_init (cacheFile : Option String) (username password : Option String)
    (auth : String → String → Option String) (r1 r2 : String) :
    Except String TvClient × Bool :=
  match load_token cacheFile with
  | some tok =>
    if pyTruthy tok then (.ok ⟨tok, "qs_" ++ r1, "cs_" ++ r2⟩, false)
    else tv_init_fallback username password auth r1 r2
  | none => tv_init_fallback username password auth r1 r2

/-- Model of `TvDatafeed.get_token` at main.py lines 330-331. -/
def get_token (c : TvClient) : PyVal := c.token

/-- An event that does not break the receive loop: a received chunk not
containing the completion marker.  A failing `recv` or a chunk containing
`series_completed` breaks the loop. -/
def isCleanChunk : RecvEvent → Bool
  | .chunk s => !(strContains "series_completed" s)
  | .fail => false

/-- A list of characters that all lie in the ASCII range. -/
def asciiL (l : List Char) : Prop := ∀ c ∈ l, c.toNat < 128

theorem startsWithL_append {n h : List Char} (post : List Char)
    (hs : startsWithL n h = true) : startsWithL n (h ++ post) = true := by
  induction n generalizing h with
  | nil => simp [startsWithL]
  | cons a as ih =>
    cases h with
    | nil => simp [startsWithL] at hs
    | cons b bs =>
      simp only [startsWithL, Bool.and_eq_true, decide_eq_true_eq] at hs
      simp only [List.cons_append, startsWithL, Bool.and_eq_true,
        decide_eq_true_eq]
      exact ⟨hs.1, ih hs.2⟩

theorem containsSub_nil (l : List Char) : containsSub [] l = true := by
  cases l <;> simp [containsSub, startsWithL]

theorem containsSub_append_right {n h : List Char} (post : List Char)
    (hc : containsSub n h = true) : containsSub n (h ++ post) = true := by
  induction h with
  | nil =>
    cases n with
    | nil => exact containsSub_nil post
    | cons a as => simp [containsSub, startsWithL] at hc
  | cons c t ih =>
    simp only [containsSub, Bool.or_eq_true] at hc
    rcases hc with hc | hc
    · simp only [List.cons_append, containsSub, Bool.or_eq_true]
      exact Or.inl (startsWithL_append post hc)
    · simp only [List.cons_append, containsSub, Bool.or_eq_true]
      exact Or.inr (ih hc)

theorem containsSub_append_left {n h : List Char} (pre : List Char)
    (hc : containsSub n h = true) : containsSub n (pre ++ h) = true := by
  induction pre with
  | nil => simpa using hc
  | cons p ps ih =>
    cases n with
    | nil => exact containsSub_nil _
    | cons a as =>
      simp only [List.cons_append, containsSub, Bool.or_eq_true]
      exact Or.inr ih

theorem containsSub_colon (pre post : List Char) :
    containsSub [':'] (pre ++ ':' :: post) = true := by
  apply containsSub_append_left
  simp [containsSub, startsWithL]

/-- The output of `format_symbol` always contains a colon. -/
theorem format_symbol_has_colon (s e : String) (c : PyContract) (t : String)
    (h : format_symbol s e c = .ok t) : strContains ":" t = true := by
  unfold format_symbol at h
  by_cases hc : strContains ":" s = true
  · rw [if_pos hc] at h
    cases h
    exact hc
  · rw [if_neg hc] at h
    cases c with
    | none =>
      cases h
      show strContains ":" (e ++ ":" ++ s) = true
      simp only [strContains, String.data_append]
      have : e.data ++ ":".data ++ s.data = e.data ++ ':' :: s.data := by
        simp
      rw [this]
      exact containsSub_colon e.data s.data
    | int n =>
      cases h
      show strContains ":" (e ++ ":" ++ s ++ String.mk (intChars n) ++ "!") = true
      simp only [strContains, String.data_append]
      have : e.data ++ ":".data ++ s.data ++ (String.mk (intChars n)).data ++
          "!".data = e.data ++ ':' :: (s.data ++ (intChars n) ++ ['!']) := by
        simp
      rw [this]
      exact containsSub_colon e.data _
    | other junk => cases h

/-- C6: a symbol that already contains an exchange qualifier (a colon) is
returned unchanged by `format_symbol` whatever the exchange argument, and
formatting is idempotent: every successful output of `format_symbol` is a
fixed point of any further formatting, whatever exchange and contract are
supplied the second time. -/
theorem format_symbol_qualified_identity (s e : String) (c : PyContract)
    (t e2 : String) (c2 : PyContract) :
    (strContains ":" s = true → format_symbol s e c = .ok s) ∧
    (format_symbol s e c = .ok t → format_symbol t e2 c2 = .ok t) := by
  constructor
  · intro h
    simp [format_symbol, h]
  · intro h
    have := format_symbol_has_colon s e c t h
    simp [format_symbol, this]

theorem format_symbol_qualified_identity_witness :
    format_symbol "NSE:NIFTY" "BSE" .none = .ok "NSE:NIFTY" ∧
    format_symbol "NSE:NIFTY" "X" (.int 2) = .ok "NSE:NIFTY" :=
  ⟨(format_symbol_qualified_identity "NSE:NIFTY" "BSE" .none "NSE:NIFTY" "X"
      (.int 2)).1 (by decide),
   (format_symbol_qualified_identity "NSE:NIFTY" "BSE" .none "NSE:NIFTY" "X"
      (.int 2)).2 ((format_symbol_qualified_identity "NSE:NIFTY" "BSE" .none
      "NSE:NIFTY" "X" (.int 2)).1 (by decide))⟩

/-- C7: an unqualified symbol (no colon) with an integer futures contract
`n` formats to the exchange, a colon, the symbol, the decimal text of `n`
and an exclamation mark. -/
theorem format_symbol_futures (symbol exchange : String) (n : Int)
    (h : strContains ":" symbol = false) :
    format_symbol symbol exchange (.int n) =
      .ok (exchange ++ ":" ++ symbol ++ String.mk (intChars n) ++ "!") := by
  simp [format_symbol, h]

theorem format_symbol_futures_witness :
    format_symbol "NIFTY" "NSE" (.int 1) = .ok "NSE:NIFTY1!" :=
  (format_symbol_futures "NIFTY" "NSE" 1 (by decide)).trans
    (congrArg Except.ok (by decide))

/-- C9: a symbol that already contains a colon is returned verbatim even
when a futures-contract argument is supplied — the integer contract is not
appended and an invalid (non-`None`, non-`int`) contract is not even
validated, since the colon branch returns before the contract is
inspected. -/
theorem format_symbol_qualified_ignores_contract (symbol exchange junk : String)
    (n : Int) (h : strContains ":" symbol = true) :
    format_symbol symbol exchange (.int n) = .ok symbol ∧
    format_symbol symbol exchange (.other junk) = .ok symbol := by
  constructor <;> simp [format_symbol, h]

theorem format_symbol_qualified_ignores_contract_witness :
    format_symbol "NSE:NIFTY" "BSE" (.int 7) = .ok "NSE:NIFTY" ∧
    format_symbol "NSE:NIFTY" "BSE" (.other "garbage") = .ok "NSE:NIFTY" :=
  format_symbol_qualified_ignores_contract "NSE:NIFTY" "BSE" "garbage" 7
    (by decide)

/-- C4: when the regular-expression search for the series payload block
fails on the accumulated text, `__create_df` takes the caught
`AttributeError` path: it logs and returns no result (the ParseError
outcome), rather than crashing with an unhandled exception
(`DfResult.crash`) or returning an empty successful frame
(`DfResult.ok symbol []`). -/
theorem create_df_no_series_block (raw symbol : String)
    (h : searchSeriesL raw.data = none) :
    create_df raw symbol = .noData := by
  simp [create_df, h]

theorem create_df_no_series_block_witness :
    create_df "hello" "SYM" = .noData :=
  create_df_no_series_block "hello" "SYM" (by decide)

/-- C2: whenever symbol formatting succeeds, the setup phase of `get_hist`
emits exactly nine protocol messages, named and ordered as in the source:
`set_auth_token`, `chart_create_session`, `quote_create_session`,
`quote_set_fields`, `quote_add_symbols`, `quote_fast_symbols`,
`resolve_symbol`, `create_series`, `switch_timezone` — for every token,
session pair, symbol, exchange, interval, bar count, futures contract and
extended-session flag. -/
theorem get_hist_setup_nine_messages (token session chart_session : String)
    (symbol exchange : String) (interval : Tv.Interval) (n_bars : Int)
    (fut_contract : PyContract) (extended_session : Bool) (sym : String)
    (h : format_symbol symbol exchange fut_contract = .ok sym) :
    (get_hist_setup token session chart_session symbol exchange interval
        n_bars fut_contract extended_session).map (List.map Msg.m) =
      .ok ["set_auth_token", "chart_create_session", "quote_create_session",
        "quote_set_fields", "quote_add_symbols", "quote_fast_symbols",
        "resolve_symbol", "create_series", "switch_timezone"] ∧
    (get_hist_setup token session chart_session symbol exchange interval
        n_bars fut_contract extended_session).map List.length = .ok 9 := by
  constructor <;> simp [get_hist_setup, h, Except.map]

theorem get_hist_setup_nine_messages_witness :
    (get_hist_setup "tok" "qs_wxyzwxyzwxyz" "cs_wxyzwxyzwxyz" "NIFTY" "NSE"
        .in_daily 10 (.int 1) false).map (List.map Msg.m) =
      .ok ["set_auth_token", "chart_create_session", "quote_create_session",
        "quote_set_fields", "quote_add_symbols", "quote_fast_symbols",
        "resolve_symbol", "create_series", "switch_timezone"] ∧
    (get_hist_setup "tok" "qs_wxyzwxyzwxyz" "cs_wxyzwxyzwxyz" "NIFTY" "NSE"
        .in_daily 10 (.int 1) false).map List.length = .ok 9 :=
  get_hist_setup_nine_messages "tok" "qs_wxyzwxyzwxyz" "cs_wxyzwxyzwxyz"
    "NIFTY" "NSE" .in_daily 10 (.int 1) false "NSE:NIFTY1!" (by decide)

/-- C8: with the token cache file containing the JSON object with a
`token` key of value `"abc"`, constructing the client with no username
and no password succeeds without any network call (second component
`false`) and stores the token, which `get_token` then returns; moreover a
missing cache file or any content that fails to parse as JSON is treated
as token-absent by the loader rather than raising. -/
theorem token_cache_load (auth : String → String → Option String)
    (r1 r2 content : String) :
    (tv_init (some "\x7b\"token\": \"abc\"\x7d") none none auth r1 r2 =
      (.ok ⟨.str "abc", "qs_" ++ r1, "cs_" ++ r2⟩, false)) ∧
    get_token ⟨.str "abc", "qs_" ++ r1, "cs_" ++ r2⟩ = .str "abc" ∧
    (jsonParse content = none → load_token (some content) = none) ∧
    load_token none = none := by
  refine ⟨?_, rfl, ?_, rfl⟩
  · have h : load_token (some "\x7b\"token\": \"abc\"\x7d") =
        some (PyVal.str "abc") := rfl
    simp [tv_init, h, pyTruthy]
    intro h2
    exact absurd h2 (by decide)
  · intro h
    simp [load_token, h]

theorem token_cache_load_witness :
    (tv_init (some "\x7b\"token\": \"abc\"\x7d") none none
        (fun _ _ => some "zzz") "x" "y" =
      (.ok ⟨.str "abc", "qs_" ++ "x", "cs_" ++ "y"⟩, false)) ∧
    load_token (some "not json") = none :=
  ⟨(token_cache_load (fun _ _ => some "zzz") "x" "y" "not json").1,
   (token_cache_load (fun _ _ => some "zzz") "x" "y" "not json").2.2.1
     (by rfl)⟩

theorem strContains_sandwich (m pre s post : String)
    (h : strContains m s = true) :
    strContains m (pre ++ s ++ post) = true := by
  simp only [strContains, String.data_append]
  exact containsSub_append_right _ (containsSub_append_left _ h)

theorem recvLoop_sound (evs : List RecvEvent) (acc raw : String)
    (h : recvLoop acc evs = some raw) :
    strContains "series_completed" raw = true ∨ RecvEvent.fail ∈ evs := by
  induction evs generalizing acc with
  | nil => simp [recvLoop] at h
  | cons e rest ih =>
    cases e with
    | fail => exact Or.inr (List.mem_cons_self _ _)
    | chunk s =>
      by_cases hm : strContains "series_completed" s = true
      · simp only [recvLoop, hm, if_pos] at h
        cases h
        exact Or.inl (strContains_sandwich _ acc s "\n" hm)
      · simp only [recvLoop, hm, if_neg, Bool.false_eq_true] at h
        rcases ih _ h with hr | hr
        · exact Or.inl hr
        · exact Or.inr (List.mem_cons_of_mem _ hr)

theorem recvLoop_clean_none (evs : List RecvEvent) (acc : String)
    (h : evs.all isCleanChunk = true) : recvLoop acc evs = none := by
  induction evs generalizing acc with
  | nil => rfl
  | cons e rest ih =>
    simp only [List.all_cons, Bool.and_eq_true] at h
    cases e with
    | fail => simp [isCleanChunk] at h
    | chunk s =>
      have hm : strContains "series_completed" s = false := by
        have := h.1
        simp only [isCleanChunk, Bool.not_eq_eq_eq_not, Bool.not_true] at this
        exact this
      simp only [recvLoop, hm, Bool.false_eq_true, if_neg]
      exact ih _ h.2

theorem recvLoop_fail_accum (pre rest : List RecvEvent) (acc : String)
    (h : pre.all isCleanChunk = true) :
    recvLoop acc (pre ++ RecvEvent.fail :: rest) = some (acc ++ accumOf pre) := by
  induction pre generalizing acc with
  | nil =>
    show some acc = some (acc ++ "")
    rw [String.append_empty]
  | cons e pre' ih =>
    simp only [List.all_cons, Bool.and_eq_true] at h
    cases e with
    | fail => simp [isCleanChunk] at h
    | chunk s =>
      have hm : strContains "series_completed" s = false := by
        have := h.1
        simp only [isCleanChunk, Bool.not_eq_eq_eq_not, Bool.not_true] at this
        exact this
      rw [List.cons_append]
      rw [show recvLoop acc
            (RecvEvent.chunk s :: (pre' ++ RecvEvent.fail :: rest)) =
          recvLoop (acc ++ s ++ "\n") (pre' ++ RecvEvent.fail :: rest) from by
        simp [recvLoop, hm]]
      rw [ih _ h.2]
      simp [accumOf, String.append_assoc]

theorem recvLoop_stopper_isSome (evs : List RecvEvent) (acc : String)
    (h : evs.any (fun e => !(isCleanChunk e)) = true) :
    (recvLoop acc evs).isSome = true := by
  induction evs generalizing acc with
  | nil => simp at h
  | cons e rest ih =>
    cases e with
    | fail => rfl
    | chunk s =>
      by_cases hm : strContains "series_completed" s = true
      · simp [recvLoop, hm]
      · simp only [List.any_cons, isCleanChunk, hm, Bool.not_false,
          Bool.false_or] at h
        simp only [recvLoop, hm, Bool.false_eq_true, if_neg]
        exact ih _ h

/-- C5: the receive loop of `get_hist` terminates exactly when the
accumulated text contains the literal `series_completed` marker or a
`recv` call raises: (1) a loop that broke did so with the marker in its
accumulator or with a failing receive in the stream; (2) a stream of
marker-free chunks with no failure never breaks the loop; (3) a stream
with a failure or a marker chunk always breaks it; and (4) when a receive
fails after marker-free chunks, the data accumulated so far is not
discarded — `__create_df` is invoked on exactly that partial buffer. -/
theorem recv_loop_termination (evs : List RecvEvent) (raw : String)
    (pre rest : List RecvEvent) (sym : String) :
    (recvLoop "" evs = some raw →
      strContains "series_completed" raw = true ∨ RecvEvent.fail ∈ evs) ∧
    (evs.all isCleanChunk = true → recvLoop "" evs = none) ∧
    (evs.any (fun e => !(isCleanChunk e)) = true →
      (recvLoop "" evs).isSome = true) ∧
    (pre.all isCleanChunk = true →
      get_hist_recv (pre ++ RecvEvent.fail :: rest) sym =
        some (create_df (accumOf pre) sym)) := by
  refine ⟨recvLoop_sound evs "" raw, recvLoop_clean_none evs "",
    recvLoop_stopper_isSome evs "", ?_⟩
  intro h
  unfold get_hist_recv
  rw [recvLoop_fail_accum pre rest "" h]
  have hempty : ("" : String) ++ accumOf pre = accumOf pre := by
    apply String.ext
    simp [String.data_append]
  rw [hempty]
  rfl

theorem recv_loop_termination_witness :
    (strContains "series_completed" "a\n" = true ∨
      RecvEvent.fail ∈ [RecvEvent.chunk "a", RecvEvent.fail]) ∧
    get_hist_recv [RecvEvent.chunk "a", RecvEvent.fail] "S" =
      some (create_df (accumOf [RecvEvent.chunk "a"]) "S") ∧
    (recvLoop "" [RecvEvent.chunk "a", RecvEvent.fail]).isSome = true ∧
    recvLoop "" [RecvEvent.chunk "b"] = none :=
  ⟨(recv_loop_termination [RecvEvent.chunk "a", RecvEvent.fail] "a\n"
      [RecvEvent.chunk "a"] [] "S").1 (by decide),
   (recv_loop_termination [RecvEvent.chunk "a", RecvEvent.fail] "a\n"
      [RecvEvent.chunk "a"] [] "S").2.2.2 (by decide),
   (recv_loop_termination [RecvEvent.chunk "a", RecvEvent.fail] "a\n"
      [RecvEvent.chunk "a"] [] "S").2.2.1 (by decide),
   (recv_loop_termination [RecvEvent.chunk "b"] "a\n" [] [] "S").2.1
      (by decide)⟩

theorem asciiL_nil : asciiL [] := by
  intro c hc
  cases hc

theorem asciiL_cons {c : Char} {l : List Char} (hc : c.toNat < 128)
    (hl : asciiL l) : asciiL (c :: l) := by
  intro x hx
  rcases List.mem_cons.mp hx with rfl | hx
  · exact hc
  · exact hl x hx

theorem asciiL_append {a b : List Char} (ha : asciiL a) (hb : asciiL b) :
    asciiL (a ++ b) := by
  intro x hx
  rcases List.mem_append.mp hx with hx | hx
  · exact ha x hx
  · exact hb x hx

theorem hexDig_ascii (n : Nat) : (hexDig n).toNat < 128 := by
  have hk : n % 16 < 16 := Nat.mod_lt n (by norm_num)
  unfold hexDig
  set k := n % 16 with hkdef
  interval_cases k <;> decide

theorem hex4_ascii (n : Nat) : asciiL (hex4 n) := by
  intro c hc
  simp only [hex4, List.mem_cons, List.not_mem_nil, or_false] at hc
  rcases hc with rfl | rfl | rfl | rfl <;> exact hexDig_ascii _

theorem escChar_ascii (c : Char) : asciiL (escChar c) := by
  unfold escChar
  split_ifs with h1 h2 h3 h4 h5 h6 h7 h8 h9
  · intro x hx
    simp only [List.mem_cons, List.not_mem_nil, or_false] at hx
    rcases hx with rfl | rfl <;> decide
  · intro x hx
    simp only [List.mem_cons, List.not_mem_nil, or_false] at hx
    rcases hx with rfl | rfl <;> decide
  · intro x hx
    simp only [List.mem_cons, List.not_mem_nil, or_false] at hx
    rcases hx with rfl | rfl <;> decide
  · intro x hx
    simp only [List.mem_cons, List.not_mem_nil, or_false] at hx
    rcases hx with rfl | rfl <;> decide
  · intro x hx
    simp only [List.mem_cons, List.not_mem_nil, or_false] at hx
    rcases hx with rfl | rfl <;> decide
  · intro x hx
    simp only [List.mem_cons, List.not_mem_nil, or_false] at hx
    rcases hx with rfl | rfl <;> decide
  · intro x hx
    simp only [List.mem_cons, List.not_mem_nil, or_false] at hx
    rcases hx with rfl | rfl <;> decide
  · intro x hx
    simp only [List.mem_cons, List.not_mem_nil, or_false] at hx
    subst hx
    simp only [Bool.and_eq_true, decide_eq_true_eq] at h8
    omega
  · exact asciiL_cons (by decide) (asciiL_cons (by decide) (hex4_ascii _))
  · refine asciiL_cons (by decide) (asciiL_cons (by decide) ?_)
    refine asciiL_append (hex4_ascii _) ?_
    exact asciiL_cons (by decide) (asciiL_cons (by decide) (hex4_ascii _))

theorem dumpStr_ascii (s : String) : asciiL (dumpStr s) := by
  unfold dumpStr
  refine asciiL_cons (by decide) ?_
  induction s.data with
  | nil => exact asciiL_cons (by decide) asciiL_nil
  | cons c t ih =>
    exact asciiL_append (escChar_ascii c) ih

theorem natCharsAux_ascii (fuel n : Nat) : asciiL (natCharsAux fuel n) := by
  induction fuel generalizing n with
  | zero => exact asciiL_nil
  | succ fuel ih =>
    unfold natCharsAux
    split_ifs with h
    · exact asciiL_cons (hexDig_ascii _) asciiL_nil
    · exact asciiL_append (ih _) (asciiL_cons (hexDig_ascii _) asciiL_nil)

theorem intChars_ascii (n : Int) : asciiL (intChars n) := by
  cases n with
  | ofNat m => exact natCharsAux_ascii _ _
  | negSucc m => exact asciiL_cons (by decide) (natCharsAux_ascii _ _)

mutual

theorem dumpJ_ascii : ∀ v : JVal, asciiL (dumpJ v)
  | .str s => by
    simpa only [dumpJ] using dumpStr_ascii s
  | .num n => by
    simpa only [dumpJ] using intChars_ascii n
  | .arr xs => by
    simp only [dumpJ]
    exact asciiL_cons (by decide)
      (asciiL_append (dumpArr_ascii xs) (asciiL_cons (by decide) asciiL_nil))
  | .obj kvs => by
    simp only [dumpJ]
    exact asciiL_cons (by decide)
      (asciiL_append (dumpObj_ascii kvs) (asciiL_cons (by decide) asciiL_nil))

theorem dumpArr_ascii : ∀ l : List JVal, asciiL (dumpArr l)
  | [] => by
    simpa only [dumpArr] using asciiL_nil
  | [v] => by
    simpa only [dumpArr] using dumpJ_ascii v
  | v :: v2 :: vs => by
    simp only [dumpArr]
    exact asciiL_append (dumpJ_ascii v)
      (asciiL_cons (by decide) (dumpArr_ascii (v2 :: vs)))

theorem dumpObj_ascii : ∀ l : List (String × JVal), asciiL (dumpObj l)
  | [] => by
    simpa only [dumpObj] using asciiL_nil
  | [(k, v)] => by
    simp only [dumpObj]
    exact asciiL_append (dumpStr_ascii k)
      (asciiL_cons (by decide) (dumpJ_ascii v))
  | (k, v) :: kv2 :: kvs => by
    simp only [dumpObj]
    exact asciiL_append
      (asciiL_append (dumpStr_ascii k)
        (asciiL_cons (by decide) (dumpJ_ascii v)))
      (asciiL_cons (by decide) (dumpObj_ascii (kv2 :: kvs)))

end

theorem utf8Len_of_ascii (l : List Char) (h : asciiL l) :
    (l.map charUtf8Size).sum = l.length := by
  induction l with
  | nil => rfl
  | cons c t ih =>
    have hc : charUtf8Size c = 1 := by
      unfold charUtf8Size
      rw [if_pos (h c (List.mem_cons_self c t))]
    simp only [List.map_cons, List.sum_cons, hc, List.length_cons]
    rw [ih fun x hx => h x (List.mem_cons_of_mem c hx)]
    omega

/-- C3: every frame built by `__create_message` is the header `~m~`, the
decimal byte length of the UTF-8 encoding of the JSON payload, `~m~`, and
then the payload itself, where the payload is the compact serialization of
the object with key `m` (the message name) followed by key `p` (the
parameter list) — for every message name and parameter list, including
parameters containing multi-byte characters.  The character count written
by `str(len(...))` equals the byte count because `json.dumps` escapes
every non-ASCII character. -/
theorem create_message_frame (func : String) (params : List JVal) :
    create_message func params =
      "~m~" ++ toString (utf8Len (construct_message func params)) ++ "~m~" ++
        construct_message func params ∧
    construct_message func params =
      String.mk (dumpJ (.obj [("m", .str func), ("p", .arr params)])) := by
  refine ⟨?_, rfl⟩
  have hascii : asciiL (construct_message func params).data :=
    dumpJ_ascii (.obj [("m", .str func), ("p", .arr params)])
  have hlen : utf8Len (construct_message func params) =
      (construct_message func params).length := by
    unfold utf8Len
    exact utf8Len_of_ascii _ hascii
  rw [hlen]
  rfl

theorem stepField_skip (xs : List (List Char)) (row : List PyFloat) :
    stepField xs (false, row) 9 = .ok (false, row ++ [.finite 0]) := rfl

theorem stepField_true_parse (xs : List (List Char)) (row : List PyFloat)
    (i : Nat) (t : List Char) (v : PyFloat) (hg : xs.get? i = some t)
    (hp : pyFloatL t = some v) :
    stepField xs (true, row) i = .ok (true, row ++ [v]) := by
  unfold stepField
  rw [if_neg (by simp)]
  simp only [hg, hp]

theorem stepField_true_fail (xs : List (List Char)) (row : List PyFloat)
    (i : Nat) (t : List Char) (hg : xs.get? i = some t)
    (hp : pyFloatL t = none) :
    stepField xs (true, row) i = .ok (false, row ++ [.finite 0]) := by
  unfold stepField
  rw [if_neg (by simp)]
  simp only [hg, hp]

theorem stepField_false_parse (xs : List (List Char)) (row : List PyFloat)
    (i : Nat) (t : List Char) (v : PyFloat) (hi : ¬i = 9)
    (hg : xs.get? i = some t) (hp : pyFloatL t = some v) :
    stepField xs (false, row) i = .ok (false, row ++ [v]) := by
  unfold stepField
  rw [if_neg (by simp [hi])]
  simp only [hg, hp]

theorem stepField_false_inv (xs : List (List Char)) (row : List PyFloat)
    (i : Nat) (p : Bool × List PyFloat)
    (h : stepField xs (false, row) i = .ok p) :
    ∃ x, p = (false, row ++ [x]) := by
  by_cases hi : i = 9
  · subst hi
    rw [stepField_skip] at h
    cases h
    exact ⟨.finite 0, rfl⟩
  · unfold stepField at h
    rw [if_neg (by simp [hi])] at h
    rcases hg : xs.get? i with _ | t
    · simp only [hg] at h
      cases h
    · simp only [hg] at h
      rcases hp : pyFloatL t with _ | v
      · simp only [hp] at h
        cases h
        exact ⟨.finite 0, rfl⟩
      · simp only [hp] at h
        cases h
        exact ⟨v, rfl⟩

/-- A record whose six positional fields all parse (timestamp finite)
produces its bar with the flag untouched. -/
theorem procTokens_full (xs : List (List Char)) (q : ℚ)
    (a b c d v : PyFloat)
    (h4 : tokFloat xs 4 = some (.finite q))
    (h5 : tokFloat xs 5 = some a) (h6 : tokFloat xs 6 = some b)
    (h7 : tokFloat xs 7 = some c) (h8 : tokFloat xs 8 = some d)
    (h9 : tokFloat xs 9 = some v) :
    procTokens true xs = .ok (true, ⟨q, a, b, c, d, v⟩) := by
  obtain ⟨t4, hg4, hp4⟩ := Option.bind_eq_some.mp h4
  obtain ⟨t5, hg5, hp5⟩ := Option.bind_eq_some.mp h5
  obtain ⟨t6, hg6, hp6⟩ := Option.bind_eq_some.mp h6
  obtain ⟨t7, hg7, hp7⟩ := Option.bind_eq_some.mp h7
  obtain ⟨t8, hg8, hp8⟩ := Option.bind_eq_some.mp h8
  obtain ⟨t9, hg9, hp9⟩ := Option.bind_eq_some.mp h9
  unfold procTokens
  simp only [hg4, hp4]
  simp only [List.foldl_cons, List.foldl_nil]
  rw [show stepFold xs (.ok (true, ([] : List PyFloat))) 5 =
      stepField xs (true, []) 5 from rfl,
    stepField_true_parse xs [] 5 t5 a hg5 hp5]
  rw [show stepFold xs (.ok (true, ([] : List PyFloat) ++ [a])) 6 =
      stepField xs (true, [] ++ [a]) 6 from rfl,
    stepField_true_parse xs ([] ++ [a]) 6 t6 b hg6 hp6]
  rw [show stepFold xs (.ok (true, (([] : List PyFloat) ++ [a]) ++ [b])) 7 =
      stepField xs (true, ([] ++ [a]) ++ [b]) 7 from rfl,
    stepField_true_parse xs (([] ++ [a]) ++ [b]) 7 t7 c hg7 hp7]
  rw [show stepFold xs
      (.ok (true, ((([] : List PyFloat) ++ [a]) ++ [b]) ++ [c])) 8 =
      stepField xs (true, (([] ++ [a]) ++ [b]) ++ [c]) 8 from rfl,
    stepField_true_parse xs ((([] ++ [a]) ++ [b]) ++ [c]) 8 t8 d hg8 hp8]
  rw [show stepFold xs
      (.ok (true, (((([] : List PyFloat) ++ [a]) ++ [b]) ++ [c]) ++ [d])) 9 =
      stepField xs (true, ((([] ++ [a]) ++ [b]) ++ [c]) ++ [d]) 9 from rfl,
    stepField_true_parse xs (((([] ++ [a]) ++ [b]) ++ [c]) ++ [d]) 9 t9 v
      hg9 hp9]
  rfl

/-- A record whose timestamp and open/high/low/close parse but whose
volume token exists and fails to parse clears the flag and records a zero
volume. -/
theorem procTokens_novol (xs : List (List Char)) (q : ℚ)
    (a b c d : PyFloat) (t9 : List Char)
    (h4 : tokFloat xs 4 = some (.finite q))
    (h5 : tokFloat xs 5 = some a) (h6 : tokFloat xs 6 = some b)
    (h7 : tokFloat xs 7 = some c) (h8 : tokFloat xs 8 = some d)
    (hg9 : xs.get? 9 = some t9) (hp9 : pyFloatL t9 = none) :
    procTokens true xs = .ok (false, ⟨q, a, b, c, d, .finite 0⟩) := by
  obtain ⟨t4, hg4, hp4⟩ := Option.bind_eq_some.mp h4
  obtain ⟨t5, hg5, hp5⟩ := Option.bind_eq_some.mp h5
  obtain ⟨t6, hg6, hp6⟩ := Option.bind_eq_some.mp h6
  obtain ⟨t7, hg7, hp7⟩ := Option.bind_eq_some.mp h7
  obtain ⟨t8, hg8, hp8⟩ := Option.bind_eq_some.mp h8
  unfold procTokens
  simp only [hg4, hp4]
  simp only [List.foldl_cons, List.foldl_nil]
  rw [show stepFold xs (.ok (true, ([] : List PyFloat))) 5 =
      stepField xs (true, []) 5 from rfl,
    stepField_true_parse xs [] 5 t5 a hg5 hp5]
  rw [show stepFold xs (.ok (true, ([] : List PyFloat) ++ [a])) 6 =
      stepField xs (true, [] ++ [a]) 6 from rfl,
    stepField_true_parse xs ([] ++ [a]) 6 t6 b hg6 hp6]
  rw [show stepFold xs (.ok (true, (([] : List PyFloat) ++ [a]) ++ [b])) 7 =
      stepField xs (true, ([] ++ [a]) ++ [b]) 7 from rfl,
    stepField_true_parse xs (([] ++ [a]) ++ [b]) 7 t7 c hg7 hp7]
  rw [show stepFold xs
      (.ok (true, ((([] : List PyFloat) ++ [a]) ++ [b]) ++ [c])) 8 =
      stepField xs (true, (([] ++ [a]) ++ [b]) ++ [c]) 8 from rfl,
    stepField_true_parse xs ((([] ++ [a]) ++ [b]) ++ [c]) 8 t8 d hg8 hp8]
  rw [show stepFold xs
      (.ok (true, (((([] : List PyFloat) ++ [a]) ++ [b]) ++ [c]) ++ [d])) 9 =
      stepField xs (true, ((([] ++ [a]) ++ [b]) ++ [c]) ++ [d]) 9 from rfl,
    stepField_true_fail xs (((([] ++ [a]) ++ [b]) ++ [c]) ++ [d]) 9 t9
      hg9 hp9]
  rfl

/-- Once the `volume_data` flag is cleared, a successfully processed
record leaves it cleared and gets volume `0.0` — the volume token is not
even read (no hypothesis about token 9 is needed). -/
theorem procTokens_false_inv (xs : List (List Char)) (vd2 : Bool) (b : Bar)
    (h : procTokens false xs = .ok (vd2, b)) :
    vd2 = false ∧ b.volume = .finite 0 := by
  unfold procTokens at h
  rcases hg4 : xs.get? 4 with _ | t4
  · simp only [hg4] at h
    cases h
  simp only [hg4] at h
  rcases hp4 : pyFloatL t4 with _ | pf
  · simp only [hp4] at h
    cases h
  simp only [hp4] at h
  cases pf with
  | inf bb => cases h
  | nan => cases h
  | finite ts =>
    simp only [List.foldl_cons, List.foldl_nil] at h
    rcases h5 : stepField xs (false, []) 5 with p5 | e5
    rotate_left
    · rw [show stepFold xs (.ok (false, ([] : List PyFloat))) 5 =
          stepField xs (false, []) 5 from rfl, h5] at h
      simp only [stepFold] at h
      cases h
    obtain ⟨x5, rfl⟩ := stepField_false_inv xs [] 5 p5 h5
    rcases h6 : stepField xs (false, [] ++ [x5]) 6 with p6 | e6
    rotate_left
    · rw [show stepFold xs (.ok (false, ([] : List PyFloat))) 5 =
          stepField xs (false, []) 5 from rfl, h5] at h
      rw [show stepFold xs (.ok ((false, ([] : List PyFloat) ++ [x5]))) 6 =
          stepField xs (false, [] ++ [x5]) 6 from rfl, h6] at h
      simp only [stepFold] at h
      cases h
    obtain ⟨x6, rfl⟩ := stepField_false_inv xs _ 6 p6 h6
    rcases h7 : stepField xs (false, ([] ++ [x5]) ++ [x6]) 7 with p7 | e7
    rotate_left
    · rw [show stepFold xs (.ok (false, ([] : List PyFloat))) 5 =
          stepField xs (false, []) 5 from rfl, h5] at h
      rw [show stepFold xs (.ok ((false, ([] : List PyFloat) ++ [x5]))) 6 =
          stepField xs (false, [] ++ [x5]) 6 from rfl, h6] at h
      rw [show stepFold xs
          (.ok ((false, (([] : List PyFloat) ++ [x5]) ++ [x6]))) 7 =
          stepField xs (false, ([] ++ [x5]) ++ [x6]) 7 from rfl, h7] at h
      simp only [stepFold] at h
      cases h
    obtain ⟨x7, rfl⟩ := stepField_false_inv xs _ 7 p7 h7
    rcases h8 : stepField xs (false, (([] ++ [x5]) ++ [x6]) ++ [x7]) 8
        with p8 | e8
    rotate_left
    · rw [show stepFold xs (.ok (false, ([] : List PyFloat))) 5 =
          stepField xs (false, []) 5 from rfl, h5] at h
      rw [show stepFold xs (.ok ((false, ([] : List PyFloat) ++ [x5]))) 6 =
          stepField xs (false, [] ++ [x5]) 6 from rfl, h6] at h
      rw [show stepFold xs
          (.ok ((false, (([] : List PyFloat) ++ [x5]) ++ [x6]))) 7 =
          stepField xs (false, ([] ++ [x5]) ++ [x6]) 7 from rfl, h7] at h
      rw [show stepFold xs
          (.ok ((false, ((([] : List PyFloat) ++ [x5]) ++ [x6]) ++ [x7]))) 8 =
          stepField xs (false, (([] ++ [x5]) ++ [x6]) ++ [x7]) 8 from rfl,
        h8] at h
      simp only [stepFold] at h
      cases h
    obtain ⟨x8, rfl⟩ := stepField_false_inv xs _ 8 p8 h8
    rw [show stepFold xs (.ok (false, ([] : List PyFloat))) 5 =
        stepField xs (false, []) 5 from rfl, h5] at h
    rw [show stepFold xs (.ok ((false, ([] : List PyFloat) ++ [x5]))) 6 =
        stepField xs (false, [] ++ [x5]) 6 from rfl, h6] at h
    rw [show stepFold xs
        (.ok ((false, (([] : List PyFloat) ++ [x5]) ++ [x6]))) 7 =
        stepField xs (false, ([] ++ [x5]) ++ [x6]) 7 from rfl, h7] at h
    rw [show stepFold xs
        (.ok ((false, ((([] : List PyFloat) ++ [x5]) ++ [x6]) ++ [x7]))) 8 =
        stepField xs (false, (([] ++ [x5]) ++ [x6]) ++ [x7]) 8 from rfl,
      h8] at h
    rw [show stepFold xs
        (.ok ((false,
          (((([] : List PyFloat) ++ [x5]) ++ [x6]) ++ [x7]) ++ [x8]))) 9 =
        stepField xs (false, ((([] ++ [x5]) ++ [x6]) ++ [x7]) ++ [x8]) 9
        from rfl, stepField_skip] at h
    simp only [List.nil_append, List.cons_append] at h
    cases h
    exact ⟨rfl, rfl⟩

/-- Every bar produced by the record loop running with the flag cleared
reports volume `0.0`. -/
theorem procAll_false_volumes (rs : List (List Char)) (bars : List Bar)
    (h : procAll false rs = .ok bars) :
    bars.map Bar.volume = List.replicate bars.length (PyFloat.finite 0) := by
  induction rs generalizing bars with
  | nil =>
    cases h
    rfl
  | cons r rs ih =>
    unfold procAll procRecord at h
    rcases hrec : procTokens false (recTokens r) with p | e
    rotate_left
    · simp only [hrec] at h
      cases h
    obtain ⟨vd1, b⟩ := p
    obtain ⟨hvd, hvol⟩ := procTokens_false_inv (recTokens r) vd1 b hrec
    subst hvd
    simp only [hrec] at h
    rcases hall : procAll false rs with bs | e2
    rotate_left
    · simp only [hall] at h
      cases h
    simp only [hall] at h
    cases h
    simp only [List.map_cons, List.length_cons, List.replicate_succ, hvol]
    rw [ih bs hall]

/-- C1: a raw stream whose series block splits into three records, the
first two fully parsed and the third with a volume token that exists but
fails to parse as a number, yields exactly three bars: the first two keep
their parsed volumes, the third reports volume `0.0` (and its other
fields are parsed normally); and — the forward-only policy — once the
flag is cleared every further record in the same response is reported
with volume `0.0` without its volume token being read (the final conjunct
needs no hypothesis at all about the volume tokens of `rs`), while the
bars already produced are left as parsed. -/
theorem create_df_three_bar_volumeless
    (raw sym : String) (out r1 r2 r3 : List Char)
    (q1 q2 q3 : ℚ) (a1 b1 c1 d1 v1 a2 b2 c2 d2 v2 a3 b3 c3 d3 : PyFloat)
    (t9 : List Char) (rs : List (List Char)) (bars : List Bar)
    (hsearch : searchSeriesL raw.data = some out)
    (hsplit : splitOnL ",\x7b\"".data out = [r1, r2, r3])
    (h14 : tokFloat (recTokens r1) 4 = some (.finite q1))
    (h15 : tokFloat (recTokens r1) 5 = some a1)
    (h16 : tokFloat (recTokens r1) 6 = some b1)
    (h17 : tokFloat (recTokens r1) 7 = some c1)
    (h18 : tokFloat (recTokens r1) 8 = some d1)
    (h19 : tokFloat (recTokens r1) 9 = some v1)
    (h24 : tokFloat (recTokens r2) 4 = some (.finite q2))
    (h25 : tokFloat (recTokens r2) 5 = some a2)
    (h26 : tokFloat (recTokens r2) 6 = some b2)
    (h27 : tokFloat (recTokens r2) 7 = some c2)
    (h28 : tokFloat (recTokens r2) 8 = some d2)
    (h29 : tokFloat (recTokens r2) 9 = some v2)
    (h34 : tokFloat (recTokens r3) 4 = some (.finite q3))
    (h35 : tokFloat (recTokens r3) 5 = some a3)
    (h36 : tokFloat (recTokens r3) 6 = some b3)
    (h37 : tokFloat (recTokens r3) 7 = some c3)
    (h38 : tokFloat (recTokens r3) 8 = some d3)
    (h39 : (recTokens r3).get? 9 = some t9)
    (h39p : pyFloatL t9 = none) :
    create_df raw sym =
      .ok sym [⟨q1, a1, b1, c1, d1, v1⟩, ⟨q2, a2, b2, c2, d2, v2⟩,
        ⟨q3, a3, b3, c3, d3, .finite 0⟩] ∧
    (procAll false rs = .ok bars →
      bars.map Bar.volume = List.replicate bars.length (PyFloat.finite 0)) := by
  refine ⟨?_, procAll_false_volumes rs bars⟩
  have e1 := procTokens_full (recTokens r1) q1 a1 b1 c1 d1 v1
    h14 h15 h16 h17 h18 h19
  have e2 := procTokens_full (recTokens r2) q2 a2 b2 c2 d2 v2
    h24 h25 h26 h27 h28 h29
  have e3 := procTokens_novol (recTokens r3) q3 a3 b3 c3 d3 t9
    h34 h35 h36 h37 h38 h39 h39p
  unfold create_df
  simp only [hsearch, hsplit]
  simp only [procAll, procRecord, e1, e2, e3]

set_option maxRecDepth 8000 in
theorem create_df_three_bar_volumeless_witness :
    create_df
        "\"s\":[\x7b\"i\":0,\"v\":[1.0,2.0,3.0,4.0,5.0,6.0]\x7d,\x7b\"i\":1,\"v\":[7.0,8.0,9.0,10.0,11.0,12.0]\x7d,\x7b\"i\":2,\"v\":[13.0,14.0,15.0,16.0,17.0]\x7d]"
        "SYM" =
      .ok "SYM"
        [⟨1, .finite 2, .finite 3, .finite 4, .finite 5, .finite 6⟩,
         ⟨7, .finite 8, .finite 9, .finite 10, .finite 11, .finite 12⟩,
         ⟨13, .finite 14, .finite 15, .finite 16, .finite 17, .finite 0⟩] ∧
    (procAll false ["\x7b\"i\":0,\"v\":[1.0,2.0,3.0,4.0,5.0,6.0]\x7d".data] =
        .ok [⟨1, .finite 2, .finite 3, .finite 4, .finite 5, .finite 0⟩] →
      List.map Bar.volume
          [⟨1, .finite 2, .finite 3, .finite 4, .finite 5, .finite 0⟩] =
        List.replicate
          (List.length
            [(⟨1, .finite 2, .finite 3, .finite 4, .finite 5,
              .finite 0⟩ : Bar)]) (PyFloat.finite 0)) :=
  create_df_three_bar_volumeless
    "\"s\":[\x7b\"i\":0,\"v\":[1.0,2.0,3.0,4.0,5.0,6.0]\x7d,\x7b\"i\":1,\"v\":[7.0,8.0,9.0,10.0,11.0,12.0]\x7d,\x7b\"i\":2,\"v\":[13.0,14.0,15.0,16.0,17.0]\x7d]"
    "SYM"
    "\x7b\"i\":0,\"v\":[1.0,2.0,3.0,4.0,5.0,6.0]\x7d,\x7b\"i\":1,\"v\":[7.0,8.0,9.0,10.0,11.0,12.0]\x7d,\x7b\"i\":2,\"v\":[13.0,14.0,15.0,16.0,17.0]".data
    "\x7b\"i\":0,\"v\":[1.0,2.0,3.0,4.0,5.0,6.0]\x7d".data
    "i\":1,\"v\":[7.0,8.0,9.0,10.0,11.0,12.0]\x7d".data
    "i\":2,\"v\":[13.0,14.0,15.0,16.0,17.0]".data
    1 7 13
    (.finite 2) (.finite 3) (.finite 4) (.finite 5) (.finite 6)
    (.finite 8) (.finite 9) (.finite 10) (.finite 11) (.finite 12)
    (.finite 14) (.finite 15) (.finite 16) (.finite 17)
    "".data
    ["\x7b\"i\":0,\"v\":[1.0,2.0,3.0,4.0,5.0,6.0]\x7d".data]
    [⟨1, .finite 2, .finite 3, .finite 4, .finite 5, .finite 0⟩]
    (by decide) (by decide)
    (by decide) (by decide) (by decide) (by decide) (by decide) (by decide)
    (by decide) (by decide) (by decide) (by decide) (by decide) (by decide)
    (by decide) (by decide) (by decide) (by decide) (by decide) (by decide)
    (by decide)

/-- C10: a parse failure at any of the open/high/low/close fields
(positional index 5 to 8) also clears the series-wide `volume_data` flag:
the failing field itself is recorded as `0.0` in that bar, its other
fields keep their parsed values, the volume of that bar is `0.0` (the
cleared flag skips it), and every subsequent record processed with the
cleared flag reports volume `0.0` without its volume token being read. -/
theorem procTokens_ohlc_failure_sets_volumeless
    (xs : List (List Char)) (q : ℚ) (j : Nat) (tj : List Char)
    (vals : Nat → PyFloat) (ys : List (List Char)) (p : Bool × Bar)
    (hj1 : 5 ≤ j) (hj2 : j ≤ 8)
    (h4 : tokFloat xs 4 = some (.finite q))
    (hother : ∀ i, 5 ≤ i → i ≤ 8 → i ≠ j → tokFloat xs i = some (vals i))
    (hgj : xs.get? j = some tj) (hpj : pyFloatL tj = none) :
    procTokens true xs =
      .ok (false, ⟨q, (if 5 = j then .finite 0 else vals 5),
        (if 6 = j then .finite 0 else vals 6),
        (if 7 = j then .finite 0 else vals 7),
        (if 8 = j then .finite 0 else vals 8), .finite 0⟩) ∧
    (procTokens false ys = .ok p → p.1 = false ∧ p.2.volume = .finite 0) := by
  constructor
  · interval_cases j
    · obtain ⟨t6, hg6, hp6⟩ := Option.bind_eq_some.mp (hother 6 (by norm_num) (by norm_num) (by norm_num))
      obtain ⟨t7, hg7, hp7⟩ := Option.bind_eq_some.mp (hother 7 (by norm_num) (by norm_num) (by norm_num))
      obtain ⟨t8, hg8, hp8⟩ := Option.bind_eq_some.mp (hother 8 (by norm_num) (by norm_num) (by norm_num))
      obtain ⟨t4, hg4, hp4⟩ := Option.bind_eq_some.mp h4
      unfold procTokens
      simp only [hg4, hp4]
      simp only [List.foldl_cons, List.foldl_nil]
      rw [show stepFold xs (.ok (true, ([] : List PyFloat))) 5 =
          stepField xs (true, ([] : List PyFloat)) 5 from rfl]
      rw [stepField_true_fail xs ([] : List PyFloat) 5 tj hgj hpj]
      rw [show stepFold xs (.ok (false, (([] : List PyFloat) ++ [PyFloat.finite 0]))) 6 =
          stepField xs (false, (([] : List PyFloat) ++ [PyFloat.finite 0])) 6 from rfl]
      rw [stepField_false_parse xs (([] : List PyFloat) ++ [PyFloat.finite 0]) 6 t6 (vals 6) (by norm_num) hg6 hp6]
      rw [show stepFold xs (.ok (false, ((([] : List PyFloat) ++ [PyFloat.finite 0]) ++ [vals 6]))) 7 =
          stepField xs (false, ((([] : List PyFloat) ++ [PyFloat.finite 0]) ++ [vals 6])) 7 from rfl]
      rw [stepField_false_parse xs ((([] : List PyFloat) ++ [PyFloat.finite 0]) ++ [vals 6]) 7 t7 (vals 7) (by norm_num) hg7 hp7]
      rw [show stepFold xs (.ok (false, (((([] : List PyFloat) ++ [PyFloat.finite 0]) ++ [vals 6]) ++ [vals 7]))) 8 =
          stepField xs (false, (((([] : List PyFloat) ++ [PyFloat.finite 0]) ++ [vals 6]) ++ [vals 7])) 8 from rfl]
      rw [stepField_false_parse xs (((([] : List PyFloat) ++ [PyFloat.finite 0]) ++ [vals 6]) ++ [vals 7]) 8 t8 (vals 8) (by norm_num) hg8 hp8]
      rw [show stepFold xs (.ok (false, ((((([] : List PyFloat) ++ [PyFloat.finite 0]) ++ [vals 6]) ++ [vals 7]) ++ [vals 8]))) 9 =
          stepField xs (false, ((((([] : List PyFloat) ++ [PyFloat.finite 0]) ++ [vals 6]) ++ [vals 7]) ++ [vals 8])) 9 from rfl]
      rw [stepField_skip xs ((((([] : List PyFloat) ++ [PyFloat.finite 0]) ++ [vals 6]) ++ [vals 7]) ++ [vals 8])]
      simp
    · obtain ⟨t5, hg5, hp5⟩ := Option.bind_eq_some.mp (hother 5 (by norm_num) (by norm_num) (by norm_num))
      obtain ⟨t7, hg7, hp7⟩ := Option.bind_eq_some.mp (hother 7 (by norm_num) (by norm_num) (by norm_num))
      obtain ⟨t8, hg8, hp8⟩ := Option.bind_eq_some.mp (hother 8 (by norm_num) (by norm_num) (by norm_num))
      obtain ⟨t4, hg4, hp4⟩ := Option.bind_eq_some.mp h4
      unfold procTokens
      simp only [hg4, hp4]
      simp only [List.foldl_cons, List.foldl_nil]
      rw [show stepFold xs (.ok (true, ([] : List PyFloat))) 5 =
          stepField xs (true, ([] : List PyFloat)) 5 from rfl]
      rw [stepField_true_parse xs ([] : List PyFloat) 5 t5 (vals 5) hg5 hp5]
      rw [show stepFold xs (.ok (true, (([] : List PyFloat) ++ [vals 5]))) 6 =
          stepField xs (true, (([] : List PyFloat) ++ [vals 5])) 6 from rfl]
      rw [stepField_true_fail xs (([] : List PyFloat) ++ [vals 5]) 6 tj hgj hpj]
      rw [show stepFold xs (.ok (false, ((([] : List PyFloat) ++ [vals 5]) ++ [PyFloat.finite 0]))) 7 =
          stepField xs (false, ((([] : List PyFloat) ++ [vals 5]) ++ [PyFloat.finite 0])) 7 from rfl]
      rw [stepField_false_parse xs ((([] : List PyFloat) ++ [vals 5]) ++ [PyFloat.finite 0]) 7 t7 (vals 7) (by norm_num) hg7 hp7]
      rw [show stepFold xs (.ok (false, (((([] : List PyFloat) ++ [vals 5]) ++ [PyFloat.finite 0]) ++ [vals 7]))) 8 =
          stepField xs (false, (((([] : List PyFloat) ++ [vals 5]) ++ [PyFloat.finite 0]) ++ [vals 7])) 8 from rfl]
      rw [stepField_false_parse xs (((([] : List PyFloat) ++ [vals 5]) ++ [PyFloat.finite 0]) ++ [vals 7]) 8 t8 (vals 8) (by norm_num) hg8 hp8]
      rw [show stepFold xs (.ok (false, ((((([] : List PyFloat) ++ [vals 5]) ++ [PyFloat.finite 0]) ++ [vals 7]) ++ [vals 8]))) 9 =
          stepField xs (false, ((((([] : List PyFloat) ++ [vals 5]) ++ [PyFloat.finite 0]) ++ [vals 7]) ++ [vals 8])) 9 from rfl]
      rw [stepField_skip xs ((((([] : List PyFloat) ++ [vals 5]) ++ [PyFloat.finite 0]) ++ [vals 7]) ++ [vals 8])]
      simp
    · obtain ⟨t5, hg5, hp5⟩ := Option.bind_eq_some.mp (hother 5 (by norm_num) (by norm_num) (by norm_num))
      obtain ⟨t6, hg6, hp6⟩ := Option.bind_eq_some.mp (hother 6 (by norm_num) (by norm_num) (by norm_num))
      obtain ⟨t8, hg8, hp8⟩ := Option.bind_eq_some.mp (hother 8 (by norm_num) (by norm_num) (by norm_num))
      obtain ⟨t4, hg4, hp4⟩ := Option.bind_eq_some.mp h4
      unfold procTokens
      simp only [hg4, hp4]
      simp only [List.foldl_cons, List.foldl_nil]
      rw [show stepFold xs (.ok (true, ([] : List PyFloat))) 5 =
          stepField xs (true, ([] : List PyFloat)) 5 from rfl]
      rw [stepField_true_parse xs ([] : List PyFloat) 5 t5 (vals 5) hg5 hp5]
      rw [show stepFold xs (.ok (true, (([] : List PyFloat) ++ [vals 5]))) 6 =
          stepField xs (true, (([] : List PyFloat) ++ [vals 5])) 6 from rfl]
      rw [stepField_true_parse xs (([] : List PyFloat) ++ [vals 5]) 6 t6 (vals 6) hg6 hp6]
      rw [show stepFold xs (.ok (true, ((([] : List PyFloat) ++ [vals 5]) ++ [vals 6]))) 7 =
          stepField xs (true, ((([] : List PyFloat) ++ [vals 5]) ++ [vals 6])) 7 from rfl]
      rw [stepField_true_fail xs ((([] : List PyFloat) ++ [vals 5]) ++ [vals 6]) 7 tj hgj hpj]
      rw [show stepFold xs (.ok (false, (((([] : List PyFloat) ++ [vals 5]) ++ [vals 6]) ++ [PyFloat.finite 0]))) 8 =
          stepField xs (false, (((([] : List PyFloat) ++ [vals 5]) ++ [vals 6]) ++ [PyFloat.finite 0])) 8 from rfl]
      rw [stepField_false_parse xs (((([] : List PyFloat) ++ [vals 5]) ++ [vals 6]) ++ [PyFloat.finite 0]) 8 t8 (vals 8) (by norm_num) hg8 hp8]
      rw [show stepFold xs (.ok (false, ((((([] : List PyFloat) ++ [vals 5]) ++ [vals 6]) ++ [PyFloat.finite 0]) ++ [vals 8]))) 9 =
          stepField xs (false, ((((([] : List PyFloat) ++ [vals 5]) ++ [vals 6]) ++ [PyFloat.finite 0]) ++ [vals 8])) 9 from rfl]
      rw [stepField_skip xs ((((([] : List PyFloat) ++ [vals 5]) ++ [vals 6]) ++ [PyFloat.finite 0]) ++ [vals 8])]
      simp
    · obtain ⟨t5, hg5, hp5⟩ := Option.bind_eq_some.mp (hother 5 (by norm_num) (by norm_num) (by norm_num))
      obtain ⟨t6, hg6, hp6⟩ := Option.bind_eq_some.mp (hother 6 (by norm_num) (by norm_num) (by norm_num))
      obtain ⟨t7, hg7, hp7⟩ := Option.bind_eq_some.mp (hother 7 (by norm_num) (by norm_num) (by norm_num))
      obtain ⟨t4, hg4, hp4⟩ := Option.bind_eq_some.mp h4
      unfold procTokens
      simp only [hg4, hp4]
      simp only [List.foldl_cons, List.foldl_nil]
      rw [show stepFold xs (.ok (true, ([] : List PyFloat))) 5 =
          stepField xs (true, ([] : List PyFloat)) 5 from rfl]
      rw [stepField_true_parse xs ([] : List PyFloat) 5 t5 (vals 5) hg5 hp5]
      rw [show stepFold xs (.ok (true, (([] : List PyFloat) ++ [vals 5]))) 6 =
          stepField xs (true, (([] : List PyFloat) ++ [vals 5])) 6 from rfl]
      rw [stepField_true_parse xs (([] : List PyFloat) ++ [vals 5]) 6 t6 (vals 6) hg6 hp6]
      rw [show stepFold xs (.ok (true, ((([] : List PyFloat) ++ [vals 5]) ++ [vals 6]))) 7 =
          stepField xs (true, ((([] : List PyFloat) ++ [vals 5]) ++ [vals 6])) 7 from rfl]
      rw [stepField_true_parse xs ((([] : List PyFloat) ++ [vals 5]) ++ [vals 6]) 7 t7 (vals 7) hg7 hp7]
      rw [show stepFold xs (.ok (true, (((([] : List PyFloat) ++ [vals 5]) ++ [vals 6]) ++ [vals 7]))) 8 =
          stepField xs (true, (((([] : List PyFloat) ++ [vals 5]) ++ [vals 6]) ++ [vals 7])) 8 from rfl]
      rw [stepField_true_fail xs (((([] : List PyFloat) ++ [vals 5]) ++ [vals 6]) ++ [vals 7]) 8 tj hgj hpj]
      rw [show stepFold xs (.ok (false, ((((([] : List PyFloat) ++ [vals 5]) ++ [vals 6]) ++ [vals 7]) ++ [PyFloat.finite 0]))) 9 =
          stepField xs (false, ((((([] : List PyFloat) ++ [vals 5]) ++ [vals 6]) ++ [vals 7]) ++ [PyFloat.finite 0])) 9 from rfl]
      rw [stepField_skip xs ((((([] : List PyFloat) ++ [vals 5]) ++ [vals 6]) ++ [vals 7]) ++ [PyFloat.finite 0])]
      simp
  · intro hp
    obtain ⟨vd2, b⟩ := p
    exact procTokens_false_inv ys vd2 b hp

set_option maxRecDepth 8000 in
theorem procTokens_ohlc_failure_sets_volumeless_witness :
    procTokens true (recTokens "i\":0,\"v\":[1.0,2.0,x,4.0,5.0,6.0]\x7d".data) =
      .ok (false, ⟨1,
        (if 5 = 6 then .finite 0 else
          (fun i => if i = 5 then PyFloat.finite 2 else
            if i = 7 then PyFloat.finite 4 else PyFloat.finite 5) 5),
        (if 6 = 6 then .finite 0 else
          (fun i => if i = 5 then PyFloat.finite 2 else
            if i = 7 then PyFloat.finite 4 else PyFloat.finite 5) 6),
        (if 7 = 6 then .finite 0 else
          (fun i => if i = 5 then PyFloat.finite 2 else
            if i = 7 then PyFloat.finite 4 else PyFloat.finite 5) 7),
        (if 8 = 6 then .finite 0 else
          (fun i => if i = 5 then PyFloat.finite 2 else
            if i = 7 then PyFloat.finite 4 else PyFloat.finite 5) 8),
        .finite 0⟩) ∧
    ((false, (⟨7, .finite 8, .finite 9, .finite 10, .finite 11,
        .finite 0⟩ : Bar)).1 = false ∧
      (false, (⟨7, .finite 8, .finite 9, .finite 10, .finite 11,
        .finite 0⟩ : Bar)).2.volume = .finite 0) :=
  ⟨(procTokens_ohlc_failure_sets_volumeless
      (recTokens "i\":0,\"v\":[1.0,2.0,x,4.0,5.0,6.0]\x7d".data) 1 6 "x".data
      (fun i => if i = 5 then PyFloat.finite 2 else
        if i = 7 then PyFloat.finite 4 else PyFloat.finite 5)
      (recTokens "i\":1,\"v\":[7.0,8.0,9.0,10.0,11.0,12.0]\x7d".data)
      (false, ⟨7, .finite 8, .finite 9, .finite 10, .finite 11, .finite 0⟩)
      (by norm_num) (by norm_num) (by decide)
      (by
        intro i h1 h2 h3
        interval_cases i
        · decide
        · exact absurd rfl h3
        · decide
        · decide)
      (by decide) (by decide)).1,
   (procTokens_ohlc_failure_sets_volumeless
      (recTokens "i\":0,\"v\":[1.0,2.0,x,4.0,5.0,6.0]\x7d".data) 1 6 "x".data
      (fun i => if i = 5 then PyFloat.finite 2 else
        if i = 7 then PyFloat.finite 4 else PyFloat.finite 5)
      (recTokens "i\":1,\"v\":[7.0,8.0,9.0,10.0,11.0,12.0]\x7d".data)
      (false, ⟨7, .finite 8, .finite 9, .finite 10, .finite 11, .finite 0⟩)
      (by norm_num) (by norm_num) (by decide)
      (by
        intro i h1 h2 h3
        interval_cases i
        · decide
        · exact absurd rfl h3
        · decide
        · decide)
      (by decide) (by decide)).2 (by decide)⟩
